import Mathlib

/-!
Verification development for the geo-entity graph and GeoJSON merge engine
of the `statistical_researchs` repository.

The Python sources are shallowly embedded as executable Lean definitions:
  * `Node` (src/requirements_files/node_model.py): coordinate validation and
    the symmetric neighbor relation;
  * `Way` (src/models/way_model.py): node removal and bounding-box upkeep;
  * `NodeCollector` / `WayCollector` (src/requirements_files/): registry
    removal and its cascade behaviour;
  * `IOPs_geojson` (src/requirements_files/IOPs_geojson.py): the LineString
    branch of `read_geojson` and the ring auto-closing of `write_geojson`;
  * `ParceGeojson` (src/utils/IOPs/parce_geojson.py): feature concatenation
    with the three duplicate policies, and the coastline chaining loop;
  * `GeoObjectStorage` (src/collectors/geo_object_storage.py): the global
    bounding-box accessor.

Python `float` coordinates are modelled as `Rat` (the program only compares
and takes min/max of them, which is exact on the values at issue); integer
ids as `Int`; Python exceptions as `Option`/`Except` results.  Python
`dict`s keyed by id are modelled as insertion-ordered association lists.
-/

/-! ## Node model (src/requirements_files/node_model.py) -/

/-- The state of a `Node`: its id and the coordinates `_lat`, `_lon`.
(`Node.__eq__` compares by id only; list membership below follows that.) -/
structure NodeState where
  nid : Int
  lat : Rat
  lon : Rat
deriving Repr, DecidableEq

/-- `Node._validate_coordinates`: latitude must lie in `[-90, 90]` and
longitude in `[-180, 180]`; the latitude check runs first, and a failed
check raises `ValueError` (modelled as `Except.error`). -/
def validate_coordinates (lat lon : Rat) : Except String (Rat × Rat) :=
  if ¬(-90 ≤ lat ∧ lat ≤ 90) then
    Except.error "lat out of range"
  else if ¬(-180 ≤ lon ∧ lon ≤ 180) then
    Except.error "lon out of range"
  else
    Except.ok (lat, lon)

/-- `Node.__init__` with both coordinates supplied: validates, then stores
the validated pair.  A `ValueError` aborts construction (no object state
exists on failure). -/
def node_init (nid : Int) (lat lon : Rat) : Except String NodeState :=
  match validate_coordinates lat lon with
  | Except.error e => Except.error e
  | Except.ok (la, lo) => Except.ok ⟨nid, la, lo⟩

/-- The `Node.coordinates` setter: validates first and only then assigns
`_lat` and `_lon`, so on a `ValueError` the node state is unchanged
(the error is returned and no updated state is produced). -/
def set_coordinates (n : NodeState) (lat lon : Rat) : Except String NodeState :=
  match validate_coordinates lat lon with
  | Except.error e => Except.error e
  | Except.ok (la, lo) => Except.ok { n with lat := la, lon := lo }

/-! ## Neighbor relation (`Node.add_neighbor` / `Node.remove_neighbor`)

Both methods recurse into the other endpoint to install/remove the back
link.  Only the two endpoints' neighbor lists are touched, so the state is
modelled as the pair of those lists (lists of node ids, in insertion
order).  The `fuel` argument models the Python call stack: each recursive
call consumes one unit.  `add_neighbor`'s recursion depth is at most 3 on
any input (the third call always hits the membership guard), and
`remove_neighbor`'s depth is bounded by the number of occurrences it can
erase, so the top-level wrappers below supply fuel that provably exceeds
the real recursion depth. -/

/-- One activation of `Node.add_neighbor` on node `x` with argument `y`:
`nx` is `x`'s neighbor list, `ny` is `y`'s.  Returns the updated pair
`(x's list, y's list)`.  Mirrors: if `y ∈ nx` do nothing, else append `y`
and recurse as `y.add_neighbor(x)`. -/
def add_neighbor_go : Nat → Int → Int → List Int → List Int → List Int × List Int
  | 0, _, _, nx, ny => (nx, ny)
  | fuel + 1, x, y, nx, ny =>
    if y ∈ nx then (nx, ny)
    else
      let r := add_neighbor_go fuel y x ny (nx ++ [y])
      (r.2, r.1)

/-- `Node.add_neighbor(A, B)` for distinct nodes: `none` models the
`ValueError` raised when a node is added as its own neighbor.  Fuel 3 is
exact: the recursion always stops by the third activation, because by then
each endpoint is in the other's list. -/
def add_neighbor (x y : Int) (nx ny : List Int) : Option (List Int × List Int) :=
  if x = y then none else some (add_neighbor_go 3 x y nx ny)

/-- One activation of `Node.remove_neighbor` on node `x` with argument
`y`: remove the first occurrence of `y` from `nx` (a missing `y` raises
`ValueError`, caught, returning `false`), then recurse as
`y.remove_neighbor(x)`.  Returns `((x's list, y's list), return value)`. -/
def remove_neighbor_go : Nat → Int → Int → List Int → List Int → (List Int × List Int) × Bool
  | 0, _, _, nx, ny => ((nx, ny), false)
  | fuel + 1, x, y, nx, ny =>
    if y ∈ nx then
      let r := remove_neighbor_go fuel y x ny (nx.erase y)
      ((r.1.2, r.1.1), true)
    else ((nx, ny), false)

/-- `Node.remove_neighbor(A, B)`: every recursive activation erases one
list occurrence before recursing, so the real recursion depth is at most
`nx.count y + ny.count x + 1`; supplying exactly that much fuel makes the
model total and equal to the Python semantics on every input. -/
def remove_neighbor (x y : Int) (nx ny : List Int) : (List Int × List Int) × Bool :=
  remove_neighbor_go (nx.count y + ny.count x + 1) x y nx ny

/-! ## Way model (src/models/way_model.py) -/

/-- The state of a `Way` relevant to node removal: id, ordered node list
and the four cached bounding-box fields (`None` when never computed). -/
structure WayState where
  wid : Int
  nodes : List NodeState
  minLat : Option Rat
  maxLat : Option Rat
  minLon : Option Rat
  maxLon : Option Rat
deriving Repr, DecidableEq

/-- Python `list.remove` on `Way._nodes`: removes the first node equal (by
id, via `Node.__eq__`) to the argument; `none` models the `ValueError`
raised when no occurrence exists. -/
def removeFirstById (nid : Int) : List NodeState → Option (List NodeState)
  | [] => none
  | n :: rest =>
    if n.nid = nid then some rest
    else
      match removeFirstById nid rest with
      | none => none
      | some r => some (n :: r)

/-- Python `min` over a list of numbers (left fold; raises on `[]`,
modelled as `none`). -/
def listMinR : List Rat → Option Rat
  | [] => none
  | x :: xs => some (xs.foldl min x)

/-- Python `max` over a list of numbers (left fold; raises on `[]`). -/
def listMaxR : List Rat → Option Rat
  | [] => none
  | x :: xs => some (xs.foldl max x)

/-- `Way.remove_node(node)`.  `nodeWays` is the removed node's `_ways`
back-reference list (way ids).  The whole body sits in
`try ... except ValueError: return False`, executed in source order:
1. `node.remove_way(self)` — erase the way id from the node's list
   (its own `ValueError` is swallowed inside `remove_way`);
2. `self._nodes.remove(node)` — a raise here is caught: state so far kept;
3. recompute the four bounds with `min`/`max` — on an emptied node list
   `min([])` raises `ValueError`, which the `except` catches, so the stale
   bounds are kept and the call returns `False` even though the node was
   removed and detached. -/
def way_remove_node (w : WayState) (nodeWays : List Int) (nid : Int) :
    WayState × List Int × Bool :=
  let nodeWays1 := nodeWays.erase w.wid
  match removeFirstById nid w.nodes with
  | none => (w, nodeWays1, false)
  | some nodes1 =>
    match listMinR (nodes1.map (·.lat)), listMaxR (nodes1.map (·.lat)),
        listMinR (nodes1.map (·.lon)), listMaxR (nodes1.map (·.lon)) with
    | some mla, some xla, some mlo, some xlo =>
        ({ w with nodes := nodes1, minLat := some mla, maxLat := some xla,
                  minLon := some mlo, maxLon := some xlo }, nodeWays1, true)
    | _, _, _, _ => ({ w with nodes := nodes1 }, nodeWays1, false)

/-! ## Registries (src/requirements_files/node_collector.py,
src/requirements_files/way_collector.py)

A registry entry for a way records its id and ordered node-id list; a node
entry records its id and the `_ways` back-reference list.  The two `dict`
registries are modelled as insertion-ordered lists with unique keys. -/

/-- A `Way` as held by `WayCollector`: id and the ids of its `_nodes`. -/
structure WayRef where
  wid : Int
  nodeIds : List Int
deriving Repr, DecidableEq

/-- A `Node` as held by `NodeCollector`: id and its `_ways` list (way ids). -/
structure NodeRef where
  nid : Int
  wayIds : List Int
deriving Repr, DecidableEq

/-- The node and way registries together (the references between them go
through ids, mirroring the object graph). -/
structure GraphStore where
  nodes : List NodeRef
  ways : List WayRef
deriving Repr, DecidableEq

/-- `NodeCollector.remove_node(node_id)`: if the id is a key, delete that
registry entry and return `True`; otherwise return `False`.  No other
state is touched — in particular no `Way` is visited. -/
def node_collector_remove_node (s : GraphStore) (nid : Int) : GraphStore × Bool :=
  if s.nodes.any (·.nid == nid) then
    ({ s with nodes := s.nodes.filter (·.nid != nid) }, true)
  else (s, false)

/-- `Node.remove_way(way)` as seen from the registry: erase the first
occurrence of the way id from the node's `_ways` list (the internal
`ValueError` on a missing occurrence is swallowed). -/
def node_remove_way (n : NodeRef) (wid : Int) : NodeRef :=
  { n with wayIds := n.wayIds.erase wid }

/-- `WayCollector.remove_way(way_id)`: if present, call
`node.remove_way(way)` for every node of the way (in order), then delete
the way's registry entry and return `True`. -/
def way_collector_remove_way (s : GraphStore) (wid : Int) : GraphStore × Bool :=
  match s.ways.find? (·.wid == wid) with
  | none => (s, false)
  | some w =>
    let nodes1 := w.nodeIds.foldl
      (fun acc nid => acc.map (fun n => if n.nid = nid then node_remove_way n wid else n))
      s.nodes
    ({ nodes := nodes1, ways := s.ways.filter (·.wid != wid) }, true)

/-! ## GeoJSON codec (src/requirements_files/IOPs_geojson.py) -/

/-- The LineString branch of `read_geojson`, node-registration part.  The
registry is the list of already-registered node ids.  When the coordinate
list and the `OSM_id_nodes` array disagree in length the source only LOGS
a warning ("skipping the way") — there is no `continue` — and then the
loop `for i, coordinate in enumerate(coordinates)` indexes `id_nodes[i]`
anyway: `none` models the uncaught `IndexError` (coordinates outnumber
ids) that aborts the whole read; with ids outnumbering coordinates a
truncated way is built from the first ids.  Returns the updated registry
and the node ids collected for the new `Way`. -/
def read_line_nodes : List Int → List (Rat × Rat) → List Int → Option (List Int × List Int)
  | reg, [], _ => some (reg, [])
  | _, _ :: _, [] => none
  | reg, _ :: cs, nid :: nids =>
    let reg1 := if nid ∈ reg then reg else reg ++ [nid]
    match read_line_nodes reg1 cs nids with
    | none => none
    | some (reg2, ids) => some (reg2, nid :: ids)

/-- The state of an `Area` relevant to writing: id, outer ring and inner
rings (live node lists; the writer mutates them in place). -/
structure AreaState where
  aid : Int
  outer : List NodeState
  inners : List (List NodeState)
deriving Repr, DecidableEq

/-- The ring-closedness test of the writer: `ring[0] != ring[-1]` with
`Node.__eq__` comparing ids.  Only ever applied to rings of length ≥ 3. -/
def ring_is_closed (r : List NodeState) : Bool :=
  match r.head?, r.getLast? with
  | some a, some b => a.nid == b.nid
  | _, _ => false

/-- The in-place auto-close of `_convert_area_collector_to_list_features`:
an unclosed ring gets its first node appended (`ring.append(ring[0])`). -/
def close_ring (r : List NodeState) : List NodeState :=
  match r.head? with
  | none => r
  | some a => if ring_is_closed r then r else r ++ [a]

/-- Inner-ring handling of the writer: a ring with fewer than 3 nodes is
skipped (and left untouched); otherwise it is auto-closed in place. -/
def convert_inner (r : List NodeState) : List NodeState :=
  if r.length < 3 then r else close_ring r

/-- The frame effect of `_convert_area_collector_to_list_features` on one
`Area`: an area whose outer ring has fewer than 3 nodes is skipped before
anything is touched; otherwise the outer ring is auto-closed in place and
every inner ring is processed by `convert_inner` (also in place, via the
live lists returned by the `outer_border`/`inner_borders` properties). -/
def convert_area_write (a : AreaState) : AreaState :=
  if a.outer.length < 3 then a
  else { a with outer := close_ring a.outer, inners := a.inners.map convert_inner }

/-! ## Graph store (src/collectors/geo_object_storage.py) -/

/-- `GeoObjectStorage`: one instance of each registry (nodes, ways with
their cached bounds, areas). -/
structure GeoObjectStorage where
  nodes : List NodeState
  ways : List WayState
  areas : List AreaState
deriving Repr, DecidableEq

/-- `GeoObjectStorage.global_bounding_box` as written in the source: the
body is `return 0, 90, 0, 90` under a TODO comment — a fixed placeholder
that ignores the registries entirely. -/
def global_bounding_box (_s : GeoObjectStorage) : Rat × Rat × Rat × Rat :=
  (0, 90, 0, 90)

/-- The bounding box of an `Area` ignoring the cached fields: min/max over
all ring coordinates (spec comparison helper for the aggregate). -/
def area_lat_list (a : AreaState) : List Rat :=
  (a.outer ++ a.inners.flatten).map (·.lat)

/-- Longitudes of all ring nodes of an area. -/
def area_lon_list (a : AreaState) : List Rat :=
  (a.outer ++ a.inners.flatten).map (·.lon)

/-- Modelled from the spec: the source's `global_bounding_box` is an
unimplemented placeholder, and the spec defines the accessor as "the
aggregate min/max over all entities' bounding boxes" with empty registries
contributing nothing.  Returned as
`(min_lat, max_lat, min_lon, max_lon)` over every node coordinate, every
way's cached bounds and every area's ring coordinates. -/
def global_bounding_box_spec (s : GeoObjectStorage) :
    Option Rat × Option Rat × Option Rat × Option Rat :=
  let lats := s.nodes.map (·.lat) ++ s.ways.filterMap (·.minLat)
      ++ s.ways.filterMap (·.maxLat) ++ (s.areas.map area_lat_list).flatten
  let lons := s.nodes.map (·.lon) ++ s.ways.filterMap (·.minLon)
      ++ s.ways.filterMap (·.maxLon) ++ (s.areas.map area_lon_list).flatten
  (listMinR lats, listMaxR lats, listMinR lons, listMaxR lons)

/-! ## Coastline chaining (`ParceGeojson.concat_coastline_sea`,
src/utils/IOPs/parce_geojson.py) -/

/-- A LineString feature as consumed by the chaining loop: its id, its
coordinate list and its parallel `OSM_id_nodes` array. -/
structure LineFeature where
  fid : Int
  coords : List (Rat × Rat)
  idNodes : List Int
deriving Repr, DecidableEq

/-- Building `dict_line` and taking out `dict_line[ind_start_line]`: find
the feature with the given id (features carry distinct ids, as produced by
the upstream dedup pass) and return it with the rest of the pool in order;
`none` models the `KeyError` when the start id is absent. -/
def pop_feature (fid : Int) : List LineFeature → Option (LineFeature × List LineFeature)
  | [] => none
  | f :: rest =>
    if f.fid = fid then some (f, rest)
    else
      match pop_feature fid rest with
      | none => none
      | some (g, rem) => some (g, f :: rem)

/-- One scan of the remaining pool (the `for feature in dict_line.values()`
body): the first feature whose FIRST node id equals the chain's trailing
id `t` matches in head position (`true`); failing that, a feature whose
LAST id equals `t` matches in tail position (`false`) — for each feature
the head test runs before the tail test, and a match breaks the scan.
Returns the match, its position flag and the pool without it. -/
def find_match (t : Int) : List LineFeature → Option (LineFeature × Bool × List LineFeature)
  | [] => none
  | f :: rest =>
    if f.idNodes.head? = some t then some (f, true, rest)
    else if f.idNodes.getLast? = some t then some (f, false, rest)
    else
      match find_match t rest with
      | none => none
      | some (g, b, rem) => some (g, b, f :: rem)

/-- The `while flag_chance` fixed-point loop of `concat_coastline_sea`.
On a head match the matched line is appended as-is (points and ids, first
element dropped) — EXCEPT for the hard-coded feature id 144, which is
reversed first; on a tail match the line is reversed, then appended with
the first element dropped.  The consumed line leaves the pool and the scan
restarts.  One unit of fuel per consumed feature: fuel `pool.length` is
exact, since every iteration removes one feature from the pool.  (A chain
with an empty id list would raise `IndexError` in Python on
`result_line_ids[-1]`; such inputs are outside the modelled domain and the
loop stops there.) -/
def chain_loop : Nat → List (Rat × Rat) → List Int → List LineFeature →
    List (Rat × Rat) × List Int × List LineFeature
  | 0, c, i, p => (c, i, p)
  | fuel + 1, c, i, p =>
    match i.getLast? with
    | none => (c, i, p)
    | some t =>
      match find_match t p with
      | none => (c, i, p)
      | some (f, isHead, rest) =>
        let pts := if isHead then (if f.fid = 144 then f.coords.reverse else f.coords)
          else f.coords.reverse
        let ids := if isHead then (if f.fid = 144 then f.idNodes.reverse else f.idNodes)
          else f.idNodes.reverse
        chain_loop fuel (c ++ pts.drop 1) (i ++ ids.drop 1) rest

/-- `ParceGeojson.concat_coastline_sea(feature_collection, ind_start_line)`:
take the start feature out of the pool, REVERSE its coordinate and id
lists (`line.reverse()` twice in the source), run the chaining loop, then
put a new feature carrying the chained line back under the start id.  The
output collection holds the unconsumed features (in pool order) followed
by the merged feature. -/
def concat_coastline_sea (features : List LineFeature) (indStart : Int) :
    Option (List LineFeature) :=
  match pop_feature indStart features with
  | none => none
  | some (start, pool) =>
    let r := chain_loop pool.length start.coords.reverse start.idNodes.reverse pool
    some (r.2.2 ++ [⟨indStart, r.1, r.2.1⟩])

/-! ## Feature concatenation (`ParceGeojson.concat_geojson_features`) -/

/-- Geometry type of a feature, as dispatched on by
`concat_geojson_features` (anything else is ignored). -/
inductive GeomType
  | lineString
  | polygon
  | other
deriving Repr, DecidableEq

/-- A feature as consumed by `concat_geojson_features`: id, geometry type,
the `tags["OSM_way_id"]` / `tags["OSM_area_id"]` merge keys (absent keys
give `none`), and an opaque payload standing for the rest of the feature
(geometry and remaining properties). -/
structure GFeature where
  fid : Int
  geom : GeomType
  wayKey : Option Int
  areaKey : Option Int
  payload : Nat
deriving Repr, DecidableEq

/-- Python `dict` assignment `d[k] = f`: overwrite in place if `k` is a
key (keeping its position), else append. -/
def dict_insert (d : List (Int × GFeature)) (k : Int) (f : GFeature) :
    List (Int × GFeature) :=
  if d.any (·.1 == k) then d.map (fun kv => if kv.1 = k then (k, f) else kv)
  else d ++ [(k, f)]

/-- The LineString duplicate-rekey loop
`while new_key in dict_ways_collectors: int(random.randint(...))` — the
drawn random number is DISCARDED and `new_key` is never reassigned, so the
loop body cannot change the loop condition.  `none` models
non-termination at the given unfolding depth. -/
def rekey_line_loop : Nat → List (Int × GFeature) → Int → Option Int
  | 0, _, _ => none
  | fuel + 1, d, k => if d.any (·.1 == k) then rekey_line_loop fuel d k else some k

/-- The Polygon duplicate-rekey loop
`while new_key in dict_areas_collectors: new_key = int(random.randint(...))`:
here the draw IS assigned, so fresh keys come from the modelled random
stream `rng` until one misses the dictionary. -/
def rekey_area_loop : Nat → List Int → List (Int × GFeature) → Int →
    Option (Int × List Int)
  | 0, _, _, _ => none
  | fuel + 1, rng, d, k =>
    if d.any (·.1 == k) then
      match rng with
      | [] => none
      | r :: rs => rekey_area_loop fuel rs d r
    else some (k, rng)

/-- The two dictionaries built by `concat_geojson_features`, plus the
modelled stream of `random.randint` draws. -/
structure ConcatState where
  wayDict : List (Int × GFeature)
  areaDict : List (Int × GFeature)
  rng : List Int
deriving Repr, DecidableEq

/-- Processing of one feature by `concat_geojson_features`.  A missing
merge key raises `ValueError` (`none`).  A fresh key is inserted; on a
duplicate key: with `rewrite_duplicates` the source only logs — the
overwriting assignment is commented out, so the dictionary keeps the
EARLIER feature; else with `adding_duplicates` the rekey loop runs (for
LineStrings it never terminates, see `rekey_line_loop`); else the later
feature is skipped. -/
def process_feature (rewrite adding : Bool) (fuel : Nat) (st : ConcatState)
    (f : GFeature) : Option ConcatState :=
  match f.geom with
  | GeomType.lineString =>
    match f.wayKey with
    | none => none
    | some k =>
      if st.wayDict.any (·.1 == k) = false then
        some { st with wayDict := st.wayDict ++ [(k, f)] }
      else if rewrite then
        some st
      else if adding then
        match rekey_line_loop fuel st.wayDict k with
        | none => none
        | some k1 => some { st with wayDict := dict_insert st.wayDict k1 f }
      else some st
  | GeomType.polygon =>
    match f.areaKey with
    | none => none
    | some k =>
      if st.areaDict.any (·.1 == k) = false then
        some { st with areaDict := st.areaDict ++ [(k, f)] }
      else if rewrite then
        some st
      else if adding then
        match rekey_area_loop fuel st.rng st.areaDict k with
        | none => none
        | some (k1, rng1) =>
          some { st with areaDict := dict_insert st.areaDict k1 f, rng := rng1 }
      else some st
  | GeomType.other => some st

/-- `ParceGeojson.concat_geojson_features(list_feature_collections,
rewrite_duplicates, adding_duplicates)`: fold every feature of every
collection through `process_feature`, then emit the way dictionary's
values followed by the area dictionary's values, rewriting each feature id
to its position in the output.  `fuel` bounds the rekey loops' unfolding
and `rng` supplies the modelled random draws; `none` models an exception
or a rekey loop that has not terminated within `fuel` iterations. -/
def concat_geojson_features (rewrite adding : Bool) (fuel : Nat) (rng : List Int)
    (colls : List (List GFeature)) : Option (List GFeature) :=
  let step := fun (acc : Option ConcatState) (f : GFeature) =>
    acc.bind (fun st => process_feature rewrite adding fuel st f)
  match colls.foldl (fun acc coll => coll.foldl step acc) (some ⟨[], [], rng⟩) with
  | none => none
  | some st =>
    let outs := st.wayDict.map (·.2) ++ st.areaDict.map (·.2)
    some (outs.enum.map (fun p => { p.2 with fid := Int.ofNat p.1 }))

/-! ## Theorems -/

/-- The three-line pool of claim C1: A carries node ids `[1,2,3]`,
B `[3,4]`, C `[5,4]` (coordinates kept parallel to the ids). -/
def c1_pool : List LineFeature :=
  [⟨1, [(1, 1), (2, 2), (3, 3)], [1, 2, 3]⟩,
   ⟨2, [(3, 3), (4, 4)], [3, 4]⟩,
   ⟨3, [(5, 5), (4, 4)], [5, 4]⟩]

/-- C1, counterexample: chaining the pool A=[1,2,3], B=[3,4], C=[5,4]
starting at A does NOT yield a single feature with ids [1,2,3,4,5]: the
source first reverses the starting line, so the chain's trailing id
becomes 1, nothing attaches, and three features come back with the chain
holding ids [3,2,1]. -/
theorem concat_coastline_sea_as_claimed_refuted :
    concat_coastline_sea c1_pool 1
      = some [⟨2, [(3, 3), (4, 4)], [3, 4]⟩, ⟨3, [(5, 5), (4, 4)], [5, 4]⟩,
          ⟨1, [(3, 3), (2, 2), (1, 1)], [3, 2, 1]⟩] ∧
    (concat_coastline_sea c1_pool 1).map List.length ≠ some 1 := by
  exact ⟨rfl, by decide⟩

/-- The pool of the amended claim C1: the starting line now carries ids
`[3,2,1]`, so that the source's initial reversal produces `[1,2,3]`. -/
def c1_pool_reversed_start : List LineFeature :=
  [⟨1, [(3, 3), (2, 2), (1, 1)], [3, 2, 1]⟩,
   ⟨2, [(3, 3), (4, 4)], [3, 4]⟩,
   ⟨3, [(5, 5), (4, 4)], [5, 4]⟩]

/-- C1, amended: `concat_coastline_sea` reverses the starting line before
chaining.  With the start line carrying ids [3,2,1] (so the reversed chain
begins as [1,2,3]) and the pool B=[3,4], C=[5,4], it returns a single
merged feature with ids [1,2,3,4,5]: B attaches head-first in original
order and C attaches reversed, because C's last (not first) id matched
the chain's trailing id — the reversal is visible in the merged
coordinates. -/
theorem concat_coastline_sea_reversed_start_chains :
    concat_coastline_sea c1_pool_reversed_start 1
      = some [⟨1, [(1, 1), (2, 2), (3, 3), (4, 4), (5, 5)], [1, 2, 3, 4, 5]⟩] := by
  rfl

/-- C2: with the default policy `rewrite_duplicates=True`, two LineString
features sharing `OSM_way_id = 5` (payloads 1 then 2) do NOT end with the
later one winning: the overwriting assignment in the source is commented
out, so the output keeps the EARLIER feature (payload 1). -/
theorem concat_rewrite_keeps_earlier_feature :
    concat_geojson_features true false 0 []
        [[⟨10, GeomType.lineString, some 5, none, 1⟩,
          ⟨11, GeomType.lineString, some 5, none, 2⟩]]
      = some [⟨0, GeomType.lineString, some 5, none, 1⟩] := by
  rfl

/-- C3: removing the only node of a single-node `Way` (node 5 at
latitude 10, longitude 20; the way's id 1 is in the node's back-reference
list).  The node IS removed and the back-reference IS detached, but
`min([])` raises inside the bbox recompute, the `except` swallows it, and
the call returns `False` with the four stale bounds still in place —
against the spec's "bounding box undefined when empty" and the method's
own contract of returning `True` when the node was removed. -/
theorem way_remove_node_singleton_bug :
    way_remove_node
        { wid := 1, nodes := [⟨5, 10, 20⟩], minLat := some 10, maxLat := some 10,
          minLon := some 20, maxLon := some 20 } [1] 5
      = ({ wid := 1, nodes := [], minLat := some 10, maxLat := some 10,
           minLon := some 20, maxLon := some 20 }, [], false) := by
  rfl

/-- C7: a LineString feature with 2 coordinates but 1 node id is NOT
skipped by `read_geojson` — after the warning the loop still indexes
`id_nodes[1]`, raising an uncaught `IndexError` that aborts the whole
read (`none`); and with 1 coordinate but 2 node ids a truncated `Way`
holding node 7 IS built and registered instead of the feature being
skipped. -/
theorem read_geojson_length_mismatch_not_skipped :
    read_line_nodes [] [(0, 0), (1, 1)] [7] = none ∧
    read_line_nodes [] [(0, 0)] [7, 8] = some ([7], [7]) := by
  exact ⟨rfl, rfl⟩

/-- C9: `global_bounding_box` is a placeholder.  On a storage holding one
way whose bounds are lat 5..5, lon 6..6 it still returns the constant
`(0, 90, 0, 90)`, while the aggregate min/max the spec defines is
`(5, 5, 6, 6)`. -/
theorem global_bounding_box_placeholder_bug :
    global_bounding_box
        ⟨[], [⟨1, [⟨7, 5, 6⟩], some 5, some 5, some 6, some 6⟩], []⟩ = (0, 90, 0, 90) ∧
    global_bounding_box_spec
        ⟨[], [⟨1, [⟨7, 5, 6⟩], some 5, some 5, some 6, some 6⟩], []⟩
      = (some 5, some 5, some 6, some 6) ∧
    global_bounding_box
        ⟨[], [⟨1, [⟨7, 5, 6⟩], some 5, some 5, some 6, some 6⟩], []⟩ ≠ (5, 5, 6, 6) := by
  refine ⟨rfl, rfl, ?_⟩
  decide

/-- The LineString rekey loop is stuck whenever the colliding key is
already a dictionary key: its body discards the random draw and never
reassigns `new_key`, so no unfolding depth reaches the exit. -/
theorem rekey_line_loop_stuck (fuel : Nat) (d : List (Int × GFeature)) (k : Int)
    (h : d.any (·.1 == k) = true) : rekey_line_loop fuel d k = none := by
  induction fuel with
  | zero => rfl
  | succ n ih => simp [rekey_line_loop, h, ih]

/-- C5: with the rekey policy (`rewrite_duplicates=False,
adding_duplicates=True`), two LineString features sharing
`OSM_way_id = 5` make `concat_geojson_features` loop forever: for EVERY
unfolding depth of the rekey loop and every stream of random draws the
call has not terminated — the claim's "terminates on every input and
keeps both" fails. -/
theorem concat_rekey_linestring_diverges (fuel : Nat) (rng : List Int) :
    concat_geojson_features false true fuel rng
        [[⟨10, GeomType.lineString, some 5, none, 1⟩,
          ⟨11, GeomType.lineString, some 5, none, 2⟩]] = none := by
  have h := rekey_line_loop_stuck fuel
    [(5, ⟨10, GeomType.lineString, some 5, none, 1⟩)] 5 (by rfl)
  simp [concat_geojson_features, process_feature, h]

/-- C8: `Node` coordinate validation.  For any latitude outside
`[-90, 90]` or longitude outside `[-180, 180]`, construction and the
coordinates setter fail with a `ValueError` and produce no updated state;
for any in-range values — the boundary values -90, 90, -180, 180
included — both succeed and store exactly the given values. -/
theorem node_coordinate_validation (n : NodeState) (nid : Int) (lat lon : Rat) :
    ((lat < -90 ∨ 90 < lat ∨ lon < -180 ∨ 180 < lon) →
      (∃ e, node_init nid lat lon = Except.error e) ∧
      (∃ e, set_coordinates n lat lon = Except.error e)) ∧
    ((-90 ≤ lat ∧ lat ≤ 90 ∧ -180 ≤ lon ∧ lon ≤ 180) →
      node_init nid lat lon = Except.ok ⟨nid, lat, lon⟩ ∧
      set_coordinates n lat lon = Except.ok { n with lat := lat, lon := lon }) := by
  constructor
  · intro hbad
    have hv : ∃ e, validate_coordinates lat lon = Except.error e := by
      unfold validate_coordinates
      split
      · exact ⟨_, rfl⟩
      · split
        · exact ⟨_, rfl⟩
        · rename_i h1 h2
          rw [not_not] at h1 h2
          rcases hbad with h | h | h | h
          · exact absurd h1.1 (by linarith)
          · exact absurd h1.2 (by linarith)
          · exact absurd h2.1 (by linarith)
          · exact absurd h2.2 (by linarith)
    obtain ⟨e, he⟩ := hv
    exact ⟨⟨e, by unfold node_init; rw [he]⟩, ⟨e, by unfold set_coordinates; rw [he]⟩⟩
  · intro hgood
    have hv : validate_coordinates lat lon = Except.ok (lat, lon) := by
      unfold validate_coordinates
      rw [if_neg (not_not_intro ⟨hgood.1, hgood.2.1⟩),
        if_neg (not_not_intro ⟨hgood.2.2.1, hgood.2.2.2⟩)]
    exact ⟨by unfold node_init; rw [hv], by unfold set_coordinates; rw [hv]⟩

/-- Witness for C8: latitude 100 is rejected by construction, and the
boundary pair (-90, 180) is accepted and stored exactly. -/
theorem node_coordinate_validation_witness :
    (∃ e, node_init 0 100 0 = Except.error e) ∧
    node_init 0 (-90) 180 = Except.ok ⟨0, -90, 180⟩ :=
  ⟨((node_coordinate_validation ⟨0, 0, 0⟩ 0 100 0).1
      (Or.inr (Or.inl (by norm_num)))).1,
   ((node_coordinate_validation ⟨0, 0, 0⟩ 0 (-90) 180).2
      ⟨by norm_num, by norm_num, by norm_num, by norm_num⟩).1⟩

/-- `remove_neighbor` on duplicate-free lists each containing the other
endpoint: both back-links are erased within the one call and it returns
`True`.  (The recursion runs exactly three activations: erase `y` from
`x`'s list, erase `x` from `y`'s list, then the membership guard stops.) -/
theorem remove_neighbor_of_nodup (x y : Int) (a b : List Int)
    (ha : a.Nodup) (hb : b.Nodup) (hya : y ∈ a) (hxb : x ∈ b) :
    remove_neighbor x y a b = ((a.erase y, b.erase x), true) := by
  have hca : a.count y = 1 := List.count_eq_one_of_mem ha hya
  have hcb : b.count x = 1 := List.count_eq_one_of_mem hb hxb
  have hne : y ∉ a.erase y := ha.not_mem_erase
  unfold remove_neighbor
  rw [hca, hcb]
  show remove_neighbor_go 3 x y a b = _
  simp [remove_neighbor_go, hya, hxb, hne]

/-- C4: symmetry of the neighbor relation.  For distinct nodes `x`, `y`
with duplicate-free neighbor lists on which the symmetry invariant holds,
`add_neighbor(x, y)` succeeds and leaves `y` in `x`'s list AND `x` in
`y`'s list (both ends updated in the one call), and `remove_neighbor(x, y)`
applied to that state removes both memberships in the one call. -/
theorem neighbor_add_remove_symmetric (x y : Int) (nx ny : List Int)
    (hxy : x ≠ y) (hnx : nx.Nodup) (hny : ny.Nodup)
    (hsym : y ∈ nx ↔ x ∈ ny) :
    ∃ nx1 ny1, add_neighbor x y nx ny = some (nx1, ny1) ∧
      y ∈ nx1 ∧ x ∈ ny1 ∧
      (remove_neighbor x y nx1 ny1).2 = true ∧
      y ∉ (remove_neighbor x y nx1 ny1).1.1 ∧
      x ∉ (remove_neighbor x y nx1 ny1).1.2 := by
  obtain ⟨nx1, ny1, hgo, hm1, hm2, hnd1, hnd2⟩ :
      ∃ nx1 ny1, add_neighbor_go 3 x y nx ny = (nx1, ny1) ∧
        y ∈ nx1 ∧ x ∈ ny1 ∧ nx1.Nodup ∧ ny1.Nodup := by
    by_cases hy : y ∈ nx
    · exact ⟨nx, ny, by simp [add_neighbor_go, hy], hy, hsym.mp hy, hnx, hny⟩
    · have hnd1 : (nx ++ [y]).Nodup := by
        simp [List.nodup_append, hnx, hy]
      by_cases hx : x ∈ ny
      · exact ⟨nx ++ [y], ny, by simp [add_neighbor_go, hy, hx], by simp, hx, hnd1, hny⟩
      · refine ⟨nx ++ [y], ny ++ [x], by simp [add_neighbor_go, hy, hx], by simp, by simp,
          hnd1, ?_⟩
        simp [List.nodup_append, hny, hx]
  have hrem := remove_neighbor_of_nodup x y nx1 ny1 hnd1 hnd2 hm1 hm2
  refine ⟨nx1, ny1, ?_, hm1, hm2, ?_, ?_, ?_⟩
  · unfold add_neighbor
    rw [if_neg hxy, hgo]
  · rw [hrem]
  · rw [hrem]
    exact hnd1.not_mem_erase
  · rw [hrem]
    exact hnd2.not_mem_erase

/-- Witness for C4: nodes 1 and 2 starting with empty neighbor lists. -/
theorem neighbor_add_remove_symmetric_witness :
    (1 : Int) ≠ 2 ∧
    (∃ nx1 ny1, add_neighbor 1 2 [] [] = some (nx1, ny1) ∧
      2 ∈ nx1 ∧ 1 ∈ ny1 ∧
      (remove_neighbor 1 2 nx1 ny1).2 = true ∧
      2 ∉ (remove_neighbor 1 2 nx1 ny1).1.1 ∧
      1 ∉ (remove_neighbor 1 2 nx1 ny1).1.2) :=
  ⟨by decide,
   neighbor_add_remove_symmetric 1 2 [] [] (by decide) (by decide) (by decide) (by simp)⟩

/-- Folding a per-node map over the registry equals mapping the per-node
fold: the registry update of `way_collector_remove_way` acts on each node
entry independently. -/
theorem foldl_map_map (wid : Int) :
    ∀ (ids : List Int) (l : List NodeRef),
      ids.foldl (fun acc nid =>
          acc.map (fun n => if n.nid = nid then node_remove_way n wid else n)) l
        = l.map (fun n => ids.foldl
            (fun n nid => if n.nid = nid then node_remove_way n wid else n) n) := by
  intro ids
  induction ids with
  | nil => intro l; simp
  | cons nid ids ih =>
    intro l
    simp only [List.foldl_cons, ih, List.map_map]
    rfl

/-- The per-node detach fold of `way_collector_remove_way`: a node that
references the removed way at most once, and either occurs in the way's
node list or does not reference the way at all, ends without the way id
in its back-reference list. -/
theorem fold_detach (wid : Int) :
    ∀ (ids : List Int) (n : NodeRef),
      n.wayIds.count wid ≤ 1 →
      (n.nid ∈ ids ∨ wid ∉ n.wayIds) →
      wid ∉ (ids.foldl
        (fun n nid => if n.nid = nid then node_remove_way n wid else n) n).wayIds := by
  intro ids
  induction ids with
  | nil =>
    intro n _ hd
    rcases hd with h | h
    · simp at h
    · simpa using h
  | cons nid ids ih =>
    intro n hc hd
    simp only [List.foldl_cons]
    by_cases h : n.nid = nid
    · rw [if_pos h]
      have hout : wid ∉ (node_remove_way n wid).wayIds := by
        have : (n.wayIds.erase wid).count wid = 0 := by
          rw [List.count_erase_self]
          omega
        exact List.count_eq_zero.mp this
      exact ih (node_remove_way n wid) (by simp [List.count_eq_zero_of_not_mem hout])
        (Or.inr hout)
    · rw [if_neg h]
      refine ih n hc ?_
      rcases hd with hmem | hout
      · rcases List.mem_cons.mp hmem with he | hmem
        · exact absurd he h
        · exact Or.inl hmem
      · exact Or.inr hout

/-- C6, amended half: `WayCollector.remove_way` cascades.  If the way id
is registered (`find?` yields `w`), every node references it at most once
and every node referencing it occurs in `w`'s node list, then the call
returns `True` and afterwards no registered node's `_ways` list still
contains the removed way. -/
theorem way_collector_remove_way_cascades (s : GraphStore) (wid : Int) (w : WayRef)
    (hfind : s.ways.find? (·.wid == wid) = some w)
    (hcnt : ∀ n ∈ s.nodes, n.wayIds.count wid ≤ 1)
    (href : ∀ n ∈ s.nodes, wid ∈ n.wayIds → n.nid ∈ w.nodeIds) :
    (way_collector_remove_way s wid).2 = true ∧
    ∀ n ∈ (way_collector_remove_way s wid).1.nodes, wid ∉ n.wayIds := by
  have heq : way_collector_remove_way s wid
      = ({ nodes := s.nodes.map (fun n => w.nodeIds.foldl
              (fun n nid => if n.nid = nid then node_remove_way n wid else n) n),
           ways := s.ways.filter (·.wid != wid) }, true) := by
    unfold way_collector_remove_way
    rw [hfind]
    dsimp only
    rw [foldl_map_map]
  rw [heq]
  refine ⟨rfl, ?_⟩
  intro n hn
  obtain ⟨m, hm, rfl⟩ := List.mem_map.mp hn
  refine fold_detach wid w.nodeIds m (hcnt m hm) ?_
  by_cases hw : wid ∈ m.wayIds
  · exact Or.inl (href m hm hw)
  · exact Or.inr hw

/-- Witness for C6: a store with nodes 1, 2 both referencing way 10,
whose node list is `[1, 2]`; after `remove_way 10` both nodes are
detached. -/
theorem way_collector_remove_way_cascades_witness :
    ((⟨[⟨1, [10]⟩, ⟨2, [10]⟩], [⟨10, [1, 2]⟩]⟩ : GraphStore).ways.find?
        (·.wid == 10) = some ⟨10, [1, 2]⟩) ∧
    (way_collector_remove_way ⟨[⟨1, [10]⟩, ⟨2, [10]⟩], [⟨10, [1, 2]⟩]⟩ 10).2 = true ∧
    ∀ n ∈ (way_collector_remove_way
        ⟨[⟨1, [10]⟩, ⟨2, [10]⟩], [⟨10, [1, 2]⟩]⟩ 10).1.nodes, (10 : Int) ∉ n.wayIds := by
  refine ⟨by decide, ?_, ?_⟩
  · exact (way_collector_remove_way_cascades _ 10 ⟨10, [1, 2]⟩ (by decide) (by decide)
      (by decide)).1
  · exact (way_collector_remove_way_cascades _ 10 ⟨10, [1, 2]⟩ (by decide) (by decide)
      (by decide)).2

/-- C6, counterexample: `NodeCollector.remove_node` does NOT cascade.  In
a store where node 1 belongs to way 10, removing node 1 succeeds (returns
`True`, the node registry empties) yet way 10's node list still contains
node 1 — the claim's "no Way's node list still contains the removed Node"
is false. -/
theorem node_collector_remove_node_no_cascade :
    (node_collector_remove_node ⟨[⟨1, [10]⟩], [⟨10, [1]⟩]⟩ 1).2 = true ∧
    (node_collector_remove_node ⟨[⟨1, [10]⟩], [⟨10, [1]⟩]⟩ 1).1.nodes = [] ∧
    ∃ w ∈ (node_collector_remove_node ⟨[⟨1, [10]⟩], [⟨10, [1]⟩]⟩ 1).1.ways,
      w.wid = 10 ∧ (1 : Int) ∈ w.nodeIds := by
  decide

/-- `ring.append(ring[0])` on a ring the writer considers closed is never
executed: `close_ring` is the identity there. -/
theorem close_ring_closed (r : List NodeState) (hc : ring_is_closed r = true) :
    close_ring r = r := by
  unfold close_ring
  cases hr : r.head? with
  | none => rfl
  | some a => simp [hc]

/-- On an unclosed ring of length ≥ 3 the writer appends the ring's first
node in place. -/
theorem close_ring_unclosed (r : List NodeState) (h3 : 3 ≤ r.length)
    (hc : ring_is_closed r = false) : close_ring r = r ++ r.take 1 := by
  cases r with
  | nil => simp at h3
  | cons b t => simp [close_ring, hc]

/-- C10: frame effect of `write_geojson` on a written `Area` whose outer
ring has at least 3 nodes.  An unclosed outer ring gets the first node
appended to the live `outer_border` list (its length grows by one); a
closed outer ring is untouched; every inner ring is processed in place by
`convert_inner` — an unclosed inner ring of length ≥ 3 likewise gains one
node (its first), a closed one is untouched; and an area all of whose
rings are already closed comes back unchanged. -/
theorem write_geojson_autoclose_frame_effect (a : AreaState) (h3 : 3 ≤ a.outer.length) :
    ((convert_area_write a).outer
        = if ring_is_closed a.outer then a.outer else a.outer ++ a.outer.take 1) ∧
    ((convert_area_write a).outer.length
        = a.outer.length + (if ring_is_closed a.outer then 0 else 1)) ∧
    ((convert_area_write a).inners = a.inners.map convert_inner) ∧
    (∀ r ∈ a.inners, 3 ≤ r.length →
      (ring_is_closed r = false →
        convert_inner r = r ++ r.take 1 ∧ (convert_inner r).length = r.length + 1) ∧
      (ring_is_closed r = true → convert_inner r = r)) ∧
    ((ring_is_closed a.outer = true ∧ ∀ r ∈ a.inners, convert_inner r = r) →
      convert_area_write a = a) := by
  have hw : convert_area_write a
      = { a with outer := close_ring a.outer, inners := a.inners.map convert_inner } := by
    unfold convert_area_write
    rw [if_neg (by omega)]
  refine ⟨?_, ?_, ?_, ?_, ?_⟩
  · rw [hw]
    by_cases hc : ring_is_closed a.outer
    · simp [close_ring_closed a.outer hc, hc]
    · simp only [Bool.not_eq_true] at hc
      simp [close_ring_unclosed a.outer h3 hc, hc]
  · rw [hw]
    by_cases hc : ring_is_closed a.outer
    · simp [close_ring_closed a.outer hc, hc]
    · simp only [Bool.not_eq_true] at hc
      simp [close_ring_unclosed a.outer h3 hc, hc, List.length_take]
      omega
  · rw [hw]
  · intro r _ h3r
    have hci : convert_inner r = close_ring r := by
      unfold convert_inner
      rw [if_neg (by omega)]
    refine ⟨fun hc => ⟨?_, ?_⟩, fun hc => ?_⟩
    · rw [hci, close_ring_unclosed r h3r hc]
    · rw [hci, close_ring_unclosed r h3r hc]
      simp [List.length_take]
      omega
    · rw [hci, close_ring_closed r hc]
  · rintro ⟨hc, hfix⟩
    rw [hw, close_ring_closed a.outer hc,
      (List.map_congr_left hfix).trans (List.map_id a.inners)]

/-- Witness for C10: an area with the unclosed triangle outer ring
1-2-3 and the unclosed inner ring 4-5-6; the write appends node 1 to the
outer ring. -/
theorem write_geojson_autoclose_frame_effect_witness :
    3 ≤ ([⟨1, 0, 0⟩, ⟨2, 0, 1⟩, ⟨3, 1, 1⟩] : List NodeState).length ∧
    (convert_area_write ⟨7, [⟨1, 0, 0⟩, ⟨2, 0, 1⟩, ⟨3, 1, 1⟩],
        [[⟨4, 2, 2⟩, ⟨5, 2, 3⟩, ⟨6, 3, 3⟩]]⟩).outer
      = [⟨1, 0, 0⟩, ⟨2, 0, 1⟩, ⟨3, 1, 1⟩, ⟨1, 0, 0⟩] := by
  refine ⟨by decide, ?_⟩
  have h := write_geojson_autoclose_frame_effect
    ⟨7, [⟨1, 0, 0⟩, ⟨2, 0, 1⟩, ⟨3, 1, 1⟩], [[⟨4, 2, 2⟩, ⟨5, 2, 3⟩, ⟨6, 3, 3⟩]]⟩ (by decide)
  rw [h.1]
  decide

/-- Witness for C5: at unfolding depth 5 with an empty random stream the
duplicate-LineString call still has not terminated. -/
theorem concat_rekey_linestring_diverges_witness :
    concat_geojson_features false true 5 []
        [[⟨10, GeomType.lineString, some 5, none, 1⟩,
          ⟨11, GeomType.lineString, some 5, none, 2⟩]] = none :=
  concat_rekey_linestring_diverges 5 []
